import Mathlib

/-!
Shallow embedding of the installation engine of the Lip package manager
(src/internal/install/install.go): the `Install` orchestrator and the
`placeFiles` file-placement engine, over an explicit filesystem state.
External collaborators (path parsing, the command runner, the installed
registry, metadata serialization) are modelled from the specification.
-/

namespace LipInstall

/-- Modelled from the spec: the external path collaborator (package
`internal/path`, not under src/) represents a canonical, comparable path
value supporting equality, joining and emptiness testing. We model a
canonical path as its list of components. -/
abbrev Path := List String

/-- Splitting a character list at every separator, accumulating the
current component in reverse. -/
def splitSlashAux : List Char → List Char → List String
  | [], acc => [String.mk acc.reverse]
  | c :: cs, acc =>
    if c = '/' then String.mk acc.reverse :: splitSlashAux cs []
    else splitSlashAux cs (c :: acc)

/-- Splitting a string at every `/` separator. -/
def splitSlash (s : String) : List String :=
  splitSlashAux s.data []

/-- Modelled from the spec: `path.Parse` turns a textual path into a
canonical path value and can fail on malformed paths. We split on the
separator, drop empty and current-directory components, and fail on
parent-directory components. -/
def parsePath (s : String) : Option Path :=
  let parts := ((splitSlash s).filter (fun c => c ≠ "")).filter (fun c => c ≠ ".")
  if parts.any (fun c => c = "..") then none else some parts

/-- Filesystem state: an association of paths to regular-file contents
(contents modelled as strings standing for byte streams), plus the set of
existing directories. -/
structure FS where
  files : List (Path × String)
  dirs : List Path
deriving DecidableEq

/-- Contents of the regular file at `p`, if one exists. -/
def FS.getFile (fs : FS) (p : Path) : Option String :=
  (fs.files.find? (fun e => e.1 = p)).map (fun e => e.2)

/-- Whether a regular file exists at `p`. -/
def FS.isFile (fs : FS) (p : Path) : Bool :=
  (fs.getFile p).isSome

/-- Whether a directory exists at `p`. -/
def FS.isDir (fs : FS) (p : Path) : Bool :=
  decide (p ∈ fs.dirs)

/-- Whether any filesystem entry exists at `p` (the `os.Stat` succeeds). -/
def FS.existsAt (fs : FS) (p : Path) : Bool :=
  fs.isFile p || fs.isDir p

/-- All ancestors of a path, the path itself included, root first. -/
def prefixesOf (p : Path) : List Path :=
  (List.range (p.length + 1)).map (fun n => p.take n)

/-- `os.MkdirAll`: create the directory `p` and every missing ancestor;
fails when some ancestor is an existing regular file. -/
def FS.mkdirAll (fs : FS) (p : Path) : Option FS :=
  if (prefixesOf p).any (fun q => fs.isFile q) then none
  else some { fs with dirs := prefixesOf p ++ fs.dirs }

/-- Unconditionally create or truncate the regular file at `p` with
content `c`. -/
def FS.setFile (fs : FS) (p : Path) (c : String) : FS :=
  { fs with files := (p, c) :: fs.files.filter (fun e => e.1 ≠ p) }

/-- `os.Create` followed by a full `io.Copy`: create or truncate the file
at `p`; fails when `p` is an existing directory. -/
def FS.createFile (fs : FS) (p : Path) (c : String) : Option FS :=
  if fs.isDir p then none else some (fs.setFile p c)

/-- `os.WriteFile`: write the whole content in one call; fails when `p` is
an existing directory or its parent directory is missing. -/
def FS.writeFile (fs : FS) (p : Path) (c : String) : Option FS :=
  if fs.isDir p then none
  else if p.dropLast = [] || fs.isDir p.dropLast then some (fs.setFile p c)
  else none

/-- One entry of a ZIP archive: its name within the archive and its byte
stream. A name ending in the separator marks a directory entry. -/
structure ZipEntry where
  name : String
  content : String
deriving DecidableEq

/-- Directory entries are recognized by a trailing separator
(`strings.HasSuffix(f.Name, "/")`). -/
def ZipEntry.isDirEntry (e : ZipEntry) : Bool :=
  decide (e.name.data.getLastD 'x' = '/')

/-- An opened ZIP archive: its entries in archive enumeration order. -/
abbrev Zip := List ZipEntry

/-- One file-placement rule of the descriptor: `{Src, Dest}`. -/
structure PlaceRule where
  src : String
  dest : String
deriving DecidableEq

/-- The two ordered lifecycle command lists of the descriptor. -/
structure ToothCommands where
  preInstall : List String
  postInstall : List String
deriving DecidableEq

/-- The already-validated package descriptor (tooth metadata) as consumed
by the installer: identity, optional asset URL (`none` models the
`AssetURL()` accessor failing), lifecycle commands and placement rules. -/
structure Metadata where
  toothRepoPath : String
  assetURLStr : Option String
  commands : ToothCommands
  place : List PlaceRule
deriving DecidableEq

/-- A tooth archive: its descriptor, its filesystem location and its
declared internal content root. -/
structure Archive where
  metadata : Metadata
  filePath : Path
  contentRoot : Path

/-- The ambient environment of one installation: the installed-package
registry contents, the command-success oracle, which archive files are
openable and what they contain, the metadata directory and the process
working directory. -/
structure Env where
  installed : List String
  cmdOk : String → Bool
  zips : List (Path × Zip)
  metadataDir : Path
  cwd : String

/-- `zip.OpenReader`: opening the archive at `p` yields its entries, or
fails when no readable archive is there. -/
def openZip (zs : List (Path × Zip)) (p : Path) : Option Zip :=
  (zs.find? (fun e => e.1 = p)).map (fun e => e.2)

/-- Modelled from the spec: `tooth.IsInstalled` (not under src/) is the
registry existence check for a package identity. -/
def isInstalled (env : Env) (repo : String) : Bool :=
  env.installed.contains repo

/-- Modelled from the spec: `runCommands` (not under src/) executes an
ordered list of shell command strings, stopping at the first failure and
surfacing it; the second component is the trace of commands actually
executed, the failing one included. -/
def runCommands (ok : String → Bool) : List String → Option String × List String
  | [] => (none, [])
  | c :: cs =>
    if ok c then
      let r := runCommands ok cs
      (r.1, c :: r.2)
    else (some c, [c])

/-- The upper-case hexadecimal digit of `n`. -/
def hexUpper (n : Nat) : Char :=
  if n < 10 then Char.ofNat (48 + n) else Char.ofNat (55 + n)

/-- Percent-escaping of one character, as `url.QueryEscape` does for
ASCII input: unreserved characters kept, space to plus, the rest to a
percent triple. -/
def escapeChar (c : Char) : List Char :=
  if c.isAlphanum || c = '-' || c = '_' || c = '.' || c = '~' then [c]
  else if c = ' ' then ['+']
  else ['%', hexUpper (c.toNat / 16 % 16), hexUpper (c.toNat % 16)]

/-- `url.QueryEscape` on ASCII strings. -/
def queryEscape (s : String) : String :=
  String.mk (s.data.foldr (fun c acc => escapeChar c ++ acc) [])

/-- Modelled from the spec: `Metadata.MarshalJSON` (tooth package, not
under src/) serializes the full descriptor to one JSON document; we model
the serialization as a concrete rendering of every descriptor field. -/
def marshalMetadata (m : Metadata) : String :=
  String.intercalate "&" [m.toothRepoPath, m.assetURLStr.getD "none",
    String.intercalate ";" m.commands.preInstall,
    String.intercalate ";" m.commands.postInstall,
    String.intercalate ";" (m.place.map (fun r => r.src ++ ">" ++ r.dest))]

/-- The distinct failure sites of `Install` and `placeFiles`, one
constructor per wrapped error return in install.go. -/
inductive IErr where
  | alreadyInstalled (repo : String)
  | preInstallFailed (cmd : String)
  | assetURLFailed
  | assetSpecMismatch
  | postInstallFailed (cmd : String)
  | mustParseFailed
  | metadataWriteFailed
  | parseWorkspaceFailed
  | openArchiveFailed
  | parseDestFailed (dest : String)
  | destExists (dest : Path)
  | mkdirFailed
  | parseSrcFailed (src : String)
  | parseEntryFailed (nm : String)
  | createFileFailed
deriving DecidableEq

/-- The scan over the archive entries for one rule (install.go lines
150-186): skip directory entries, parse each entry name, and copy every
entry whose parsed path equals `src` exactly onto `dest`, in enumeration
order. Returns the first error, if any, and the filesystem as mutated so
far. -/
def copyMatches (src dest : Path) : Zip → FS → Option IErr × FS
  | [], fs => (none, fs)
  | e :: es, fs =>
    if e.isDirEntry then copyMatches src dest es fs
    else
      match parsePath e.name with
      | none => (some (IErr.parseEntryFailed e.name), fs)
      | some p =>
        if p = src then
          match fs.createFile dest e.content with
          | none => (some IErr.createFileFailed, fs)
          | some fs2 => copyMatches src dest es fs2
        else copyMatches src dest es fs

/-- Processing of one placement rule (install.go lines 122-186): parse the
destination, fail if anything already exists there, create the missing
parent directories, parse the source, then scan the archive. -/
def placeRuleStep (workspaceDir contentRoot : Path) (zip : Zip) (rule : PlaceRule)
    (fs : FS) : Option IErr × FS :=
  match parsePath rule.dest with
  | none => (some (IErr.parseDestFailed rule.dest), fs)
  | some relDest =>
    if fs.existsAt (workspaceDir ++ relDest) then
      (some (IErr.destExists relDest), fs)
    else
      match fs.mkdirAll (workspaceDir ++ relDest).dropLast with
      | none => (some IErr.mkdirFailed, fs)
      | some fs1 =>
        match parsePath rule.src with
        | none => (some (IErr.parseSrcFailed rule.src), fs1)
        | some relSrc =>
          copyMatches (contentRoot ++ relSrc) (workspaceDir ++ relDest) zip fs1

/-- The rule loop of `placeFiles`: rules in order, first error aborts the
remaining rules, partial effects kept. -/
def placeRules (workspaceDir contentRoot : Path) (zip : Zip) :
    List PlaceRule → FS → Option IErr × FS
  | [], fs => (none, fs)
  | r :: rs, fs =>
    match placeRuleStep workspaceDir contentRoot zip r fs with
    | (none, fs1) => placeRules workspaceDir contentRoot zip rs fs1
    | (some e, fs1) => (some e, fs1)

/-- `placeFiles` (install.go lines 99-190): resolve the working directory,
open the archive, then place every rule. -/
def placeFiles (env : Env) (m : Metadata) (assetArchiveFilePath contentRoot : Path)
    (fs : FS) : Option IErr × FS :=
  match parsePath env.cwd with
  | none => (some IErr.parseWorkspaceFailed, fs)
  | some workspaceDir =>
    match openZip env.zips assetArchiveFilePath with
    | none => (some IErr.openArchiveFailed, fs)
    | some zip => placeRules workspaceDir contentRoot zip m.place fs

/-- The observable outcome of one `Install` call: the returned error (or
`none` for success), the final filesystem, and the trace of lifecycle
commands executed, in order. -/
structure InstallOut where
  result : Option IErr
  fs : FS
  trace : List String
deriving DecidableEq

/-- Steps 4 and 5 of `Install` (install.go lines 67-95): post-install
commands, then metadata-record write keyed by the escaped identity. -/
def installTail (env : Env) (archive : Archive) (t1 : List String) (fs1 : FS) : InstallOut :=
  match runCommands env.cmdOk archive.metadata.commands.postInstall with
  | (some c, t2) => ⟨some (IErr.postInstallFailed c), fs1, t1 ++ t2⟩
  | (none, t2) =>
    match parsePath (queryEscape archive.metadata.toothRepoPath ++ ".json") with
    | none => ⟨some IErr.mustParseFailed, fs1, t1 ++ t2⟩
    | some fn =>
      match fs1.writeFile (env.metadataDir ++ fn) (marshalMetadata archive.metadata) with
      | none => ⟨some IErr.metadataWriteFailed, fs1, t1 ++ t2⟩
      | some fs2 => ⟨none, fs2, t1 ++ t2⟩

/-- `Install` (install.go lines 20-96): duplicate check, pre-install
commands, asset-location consistency check, file placement, post-install
commands, metadata write. The error value returned by `placeFiles` is
discarded, exactly as in the source, which never inspects that call's
return value: only the mutated filesystem (`.2`) flows onward. -/
def Install (env : Env) (archive : Archive) (assetArchiveFilePath : Path)
    (fs0 : FS) : InstallOut :=
  if isInstalled env archive.metadata.toothRepoPath then
    ⟨some (IErr.alreadyInstalled archive.metadata.toothRepoPath), fs0, []⟩
  else
    match runCommands env.cmdOk archive.metadata.commands.preInstall with
    | (some c, t1) => ⟨some (IErr.preInstallFailed c), fs0, t1⟩
    | (none, t1) =>
      match archive.metadata.assetURLStr with
      | none => ⟨some IErr.assetURLFailed, fs0, t1⟩
      | some urlStr =>
        if (assetArchiveFilePath.isEmpty && urlStr != "") ||
            (!assetArchiveFilePath.isEmpty && urlStr == "") then
          ⟨some IErr.assetSpecMismatch, fs0, t1⟩
        else
          installTail env archive t1
            (if assetArchiveFilePath.isEmpty then
              (placeFiles env archive.metadata archive.filePath archive.contentRoot fs0).2
            else
              (placeFiles env archive.metadata assetArchiveFilePath [] fs0).2)

/-- The archive entries that one rule selects: non-directory entries whose
parsed name equals the expected source path exactly. -/
def matchingEntries (src : Path) (zip : Zip) : List ZipEntry :=
  zip.filter (fun e => !e.isDirEntry && decide (parsePath e.name = some src))

/-! Concrete scenarios used as witnesses and counterexamples. -/

/-- A command oracle under which every command succeeds. -/
def allOk : String → Bool := fun _ => true

/-- An archive holding the single payload file `bin/tool`. -/
def zipTool : Zip := [⟨"bin/tool", "X"⟩]

/-- A baseline environment: nothing installed, all commands succeed, one
openable tooth archive, metadata directory `meta`, workspace `ws`. -/
def envW : Env :=
  { installed := [], cmdOk := allOk, zips := [(["tooth.zip"], zipTool)],
    metadataDir := ["meta"], cwd := "ws" }

/-- An empty filesystem. -/
def fsEmpty : FS := ⟨[], []⟩

/-- A filesystem holding just the metadata directory. -/
def fsM : FS := ⟨[], [["meta"]]⟩

/-- C1 scenario: one placement rule whose destination `tool` is already
occupied in the workspace. -/
def mC1 : Metadata :=
  { toothRepoPath := "a.b/c", assetURLStr := some "",
    commands := { preInstall := [], postInstall := ["post1"] },
    place := [{ src := "bin/tool", dest := "tool" }] }

def archC1 : Archive := { metadata := mC1, filePath := ["tooth.zip"], contentRoot := [] }

def fsC1 : FS := ⟨[(["ws", "tool"], "OLD")], [["meta"]]⟩

/-- C2 scenario: supplied archive path and descriptor asset URL both
empty. -/
def mC2 : Metadata :=
  { toothRepoPath := "pkg", assetURLStr := some "",
    commands := { preInstall := [], postInstall := [] }, place := [] }

def archC2 : Archive := { metadata := mC2, filePath := ["tooth.zip"], contentRoot := [] }

/-- C3 scenario: a pre-install command plus the mismatched pairing (empty
supplied path, non-empty asset URL). -/
def mC3 : Metadata :=
  { toothRepoPath := "pkg3", assetURLStr := some "https://x/a.zip",
    commands := { preInstall := ["pre1"], postInstall := [] }, place := [] }

def archC3 : Archive := { metadata := mC3, filePath := ["tooth.zip"], contentRoot := [] }

/-- C5 scenario: two placement rules, the first targeting an occupied
destination. -/
def zipC5 : Zip := [⟨"bin/tool", "X"⟩, ⟨"bin/other", "Y"⟩]

def envC5 : Env :=
  { installed := [], cmdOk := allOk, zips := [(["tooth.zip"], zipC5)],
    metadataDir := ["meta"], cwd := "ws" }

def mC5 : Metadata :=
  { toothRepoPath := "p.q/r", assetURLStr := some "",
    commands := { preInstall := [], postInstall := [] },
    place := [{ src := "bin/tool", dest := "occupied" },
      { src := "bin/other", dest := "other" }] }

def archC5 : Archive := { metadata := mC5, filePath := ["tooth.zip"], contentRoot := [] }

def fsC5 : FS := ⟨[(["ws", "occupied"], "OLD")], [["meta"]]⟩

/-- C6 scenario: the identity is already recorded as installed. -/
def envC6 : Env :=
  { installed := ["a.b/c"], cmdOk := allOk, zips := [(["tooth.zip"], zipTool)],
    metadataDir := ["meta"], cwd := "ws" }

def mC6 : Metadata :=
  { toothRepoPath := "a.b/c", assetURLStr := some "",
    commands := { preInstall := ["pre6"], postInstall := ["post6"] },
    place := [{ src := "bin/tool", dest := "tool" }] }

def archC6 : Archive := { metadata := mC6, filePath := ["tooth.zip"], contentRoot := [] }

/-- C7 scenario (spec section 8): entries `a/b.txt` and `a/bb.txt` with
content root `a` and rule source `b.txt`. -/
def zipC7 : Zip := [⟨"a/", ""⟩, ⟨"a/b.txt", "GOOD"⟩, ⟨"a/bb.txt", "BAD"⟩]

def ruleC7 : PlaceRule := { src := "b.txt", dest := "out.txt" }

/-- The filesystem after the directory creation of the C7 rule. -/
def fs1C7 : FS := ⟨[], [[], ["ws"]]⟩

/-- C8 scenario: like C1, with its own identity and post-install
command. -/
def mC8 : Metadata :=
  { toothRepoPath := "x.y/z", assetURLStr := some "",
    commands := { preInstall := [], postInstall := ["post8"] },
    place := [{ src := "bin/tool", dest := "tool" }] }

def archC8 : Archive := { metadata := mC8, filePath := ["tooth.zip"], contentRoot := [] }

def fsC8 : FS := ⟨[(["ws", "tool"], "OLD")], [["meta"]]⟩

/-- C9 scenario: a rule whose source matches no archive entry, with a
nested destination directory. -/
def zipC9 : Zip := [⟨"a/b.txt", "GOOD"⟩]

def ruleC9 : PlaceRule := { src := "missing.txt", dest := "sub/out.txt" }

/-- The filesystem after the directory creation of the C9 rule. -/
def fs1C9 : FS := ⟨[], [[], ["ws"], ["ws", "sub"]]⟩

/-- C10 scenario: the same rule twice, so the second processing finds the
file the first one placed. -/
def ruleC10 : PlaceRule := { src := "bin/tool", dest := "tool" }

/-- The filesystem after the first C10 rule placed `ws/tool`. -/
def fs1C10 : FS := ⟨[(["ws", "tool"], "X")], [[], ["ws"]]⟩

/-! Helper lemmas about the filesystem operations. -/

theorem FS.setFile_dirs (fs : FS) (p : Path) (c : String) :
    (fs.setFile p c).dirs = fs.dirs := rfl

theorem FS.isDir_setFile (fs : FS) (p : Path) (c : String) (q : Path) :
    (fs.setFile p c).isDir q = fs.isDir q := rfl

theorem FS.getFile_setFile_same (fs : FS) (p : Path) (c : String) :
    (fs.setFile p c).getFile p = some c := by
  simp [FS.setFile, FS.getFile, List.find?]

theorem FS.mkdirAll_files (fs : FS) (p : Path) (fs1 : FS)
    (h : fs.mkdirAll p = some fs1) : fs1.files = fs.files := by
  unfold FS.mkdirAll at h
  split at h
  · exact Option.noConfusion h
  · cases h; rfl

theorem FS.mkdirAll_dirs (fs : FS) (p : Path) (fs1 : FS)
    (h : fs.mkdirAll p = some fs1) : fs1.dirs = prefixesOf p ++ fs.dirs := by
  unfold FS.mkdirAll at h
  split at h
  · exact Option.noConfusion h
  · cases h; rfl

theorem FS.isFile_of_files_eq (fs fs1 : FS) (h : fs1.files = fs.files) (p : Path) :
    fs1.isFile p = fs.isFile p := by
  simp [FS.isFile, FS.getFile, h]

theorem FS.isFile_false_of_existsAt_false (fs : FS) (p : Path)
    (h : fs.existsAt p = false) : fs.isFile p = false := by
  unfold FS.existsAt at h
  exact (Bool.or_eq_false_iff.mp h).1

/-! Helper lemmas about the archive scan of one placement rule. -/

theorem copyMatches_eq_foldl (src dest : Path) (zip : Zip) (fs : FS)
    (hdir : fs.isDir dest = false)
    (hp : ∀ e ∈ zip, e.isDirEntry = false → (parsePath e.name).isSome) :
    copyMatches src dest zip fs =
      (none, (matchingEntries src zip).foldl (fun f e => f.setFile dest e.content) fs) := by
  induction zip generalizing fs with
  | nil => simp [copyMatches, matchingEntries]
  | cons e es ih =>
    have hpes : ∀ x ∈ es, x.isDirEntry = false → (parsePath x.name).isSome := by
      intro x hx
      exact hp x (List.mem_cons_of_mem e hx)
    by_cases he : e.isDirEntry = true
    · simp only [copyMatches, he, if_true]
      rw [ih fs hdir hpes]
      simp [matchingEntries, he]
    · have he' : e.isDirEntry = false := by
        cases h : e.isDirEntry
        · rfl
        · exact absurd h he
      obtain ⟨q, hq⟩ := Option.isSome_iff_exists.mp (hp e (List.mem_cons_self e es) he')
      by_cases hqs : q = src
      · have hcreate : fs.createFile dest e.content = some (fs.setFile dest e.content) := by
          simp [FS.createFile, hdir]
        have step : copyMatches src dest (e :: es) fs =
            copyMatches src dest es (fs.setFile dest e.content) := by
          simp [copyMatches, he', hq, hqs, hcreate]
        rw [step, ih (fs.setFile dest e.content) (by rw [FS.isDir_setFile]; exact hdir) hpes]
        simp [matchingEntries, he', hq, hqs]
      · have step : copyMatches src dest (e :: es) fs = copyMatches src dest es fs := by
          simp [copyMatches, he', hq, hqs]
        rw [step, ih fs hdir hpes]
        simp [matchingEntries, he', hq, hqs]

theorem copyMatches_no_match (src dest : Path) (zip : Zip) (fs : FS)
    (hp : ∀ e ∈ zip, e.isDirEntry = false → (parsePath e.name).isSome)
    (hnone : matchingEntries src zip = []) :
    copyMatches src dest zip fs = (none, fs) := by
  induction zip generalizing fs with
  | nil => simp [copyMatches]
  | cons e es ih =>
    have hpes : ∀ x ∈ es, x.isDirEntry = false → (parsePath x.name).isSome := by
      intro x hx
      exact hp x (List.mem_cons_of_mem e hx)
    by_cases he : e.isDirEntry = true
    · simp only [copyMatches, he, if_true]
      apply ih _ hpes
      simpa [matchingEntries, he] using hnone
    · have he' : e.isDirEntry = false := by
        cases h : e.isDirEntry
        · rfl
        · exact absurd h he
      obtain ⟨q, hq⟩ := Option.isSome_iff_exists.mp (hp e (List.mem_cons_self e es) he')
      by_cases hqs : q = src
      · exfalso
        have hmem : e ∈ matchingEntries src (e :: es) := by
          simp [matchingEntries, he', hq, hqs]
        rw [hnone] at hmem
        exact List.not_mem_nil e hmem
      · have step : copyMatches src dest (e :: es) fs = copyMatches src dest es fs := by
          simp [copyMatches, he', hq, hqs]
        rw [step]
        apply ih _ hpes
        simpa [matchingEntries, he', hq, hqs] using hnone

/-! Helper lemmas about the install orchestrator. -/

theorem installTail_result_ne_mismatch (env : Env) (archive : Archive) (t1 : List String)
    (fs1 : FS) : (installTail env archive t1 fs1).result ≠ some IErr.assetSpecMismatch := by
  unfold installTail
  split
  · simp
  · split
    · simp
    · split <;> simp

/-- `Install` once the duplicate check, the pre-install commands and the
asset-URL retrieval have gone through: the asset-location consistency
check, then placement, post-install commands and the metadata write. -/
theorem install_eq_of_checks (env : Env) (archive : Archive) (p : Path) (fs : FS)
    (u : String) (t1 : List String)
    (h1 : isInstalled env archive.metadata.toothRepoPath = false)
    (h2 : runCommands env.cmdOk archive.metadata.commands.preInstall = (none, t1))
    (h3 : archive.metadata.assetURLStr = some u) :
    Install env archive p fs =
      if (p.isEmpty && u != "") || (!p.isEmpty && u == "") then
        ⟨some IErr.assetSpecMismatch, fs, t1⟩
      else
        installTail env archive t1
          (if p.isEmpty then
            (placeFiles env archive.metadata archive.filePath archive.contentRoot fs).2
          else
            (placeFiles env archive.metadata p [] fs).2) := by
  unfold Install
  rw [h1, h2, h3]
  simp

/-- Whenever `Install` returns the asset-location configuration error, the
filesystem is untouched and the commands run so far are exactly the
pre-install commands. -/
theorem install_mismatch_inv (env : Env) (archive : Archive) (p : Path) (fs : FS) :
    (Install env archive p fs).result = some IErr.assetSpecMismatch →
    Install env archive p fs =
      ⟨some IErr.assetSpecMismatch, fs,
        (runCommands env.cmdOk archive.metadata.commands.preInstall).2⟩ := by
  unfold Install
  split
  · intro h
    simp at h
  · split
    · intro h
      simp at h
    · split
      · intro h
        simp at h
      · split
        · intro _
          simp_all
        · intro h
          exact absurd h (installTail_result_ne_mismatch _ _ _ _)

/-- The asset-location consistency condition, as the code tests it:
`Install` raises the configuration error exactly when one of the supplied
path and the asset URL is empty and the other is not. -/
theorem install_config_error_iff (env : Env) (archive : Archive) (p : Path) (fs : FS)
    (u : String) (t1 : List String)
    (h1 : isInstalled env archive.metadata.toothRepoPath = false)
    (h2 : runCommands env.cmdOk archive.metadata.commands.preInstall = (none, t1))
    (h3 : archive.metadata.assetURLStr = some u) :
    ((Install env archive p fs).result = some IErr.assetSpecMismatch ↔
      ((p.isEmpty = true ∧ u ≠ "") ∨ (p.isEmpty = false ∧ u = ""))) := by
  rw [install_eq_of_checks env archive p fs u t1 h1 h2 h3]
  by_cases hb : ((p.isEmpty && u != "") || (!p.isEmpty && u == "")) = true
  · rw [if_pos hb]
    simp only [Bool.or_eq_true, Bool.and_eq_true, bne_iff_ne, beq_iff_eq,
      Bool.not_eq_true'] at hb
    simpa using hb
  · rw [if_neg hb]
    simp only [Bool.or_eq_true, Bool.and_eq_true, bne_iff_ne, beq_iff_eq,
      Bool.not_eq_true'] at hb
    constructor
    · intro hcontra
      exact absurd hcontra (installTail_result_ne_mismatch _ _ _ _)
    · intro hP
      exact absurd hP hb

/-! Claim theorems. -/

/-- C1 (code divergence evidence): in this concrete run `placeFiles`
returns the destination-already-exists error, yet `Install` returns
success, still runs the post-install command and still writes the
metadata record, because install.go never checks the value returned by
`placeFiles`. -/
theorem C1_placeFiles_error_not_propagated :
    (placeFiles envW mC1 archC1.filePath archC1.contentRoot fsC1).1 =
      some (IErr.destExists ["tool"]) ∧
    (Install envW archC1 [] fsC1).result = none ∧
    (Install envW archC1 [] fsC1).trace = ["post1"] ∧
    (Install envW archC1 [] fsC1).fs.getFile ["meta", "a.b%2Fc.json"] =
      some (marshalMetadata mC1) := by
  decide

/-- C2 counterexample: with the supplied asset-archive path and the
descriptor's asset URL both empty, `Install` raises no configuration
error and completes successfully, refuting the claim that the both-empty
pairing fails. -/
theorem C2_both_empty_no_config_error :
    ([] : Path).isEmpty = true ∧ archC2.metadata.assetURLStr = some "" ∧
    (Install envW archC2 [] fsM).result ≠ some IErr.assetSpecMismatch ∧
    (Install envW archC2 [] fsM).result = none := by
  decide

/-- C2 (amended): once the duplicate check, the pre-install commands and
the asset-URL retrieval succeed, `Install` fails with the configuration
error exactly when one of the supplied asset-archive path and the
descriptor's asset URL is empty and the other is not; the both-empty and
both-non-empty pairings raise no configuration error. -/
theorem C2_config_error_iff_exactly_one_empty (env : Env) (archive : Archive) (p : Path)
    (fs : FS) (u : String) (t1 : List String)
    (h1 : isInstalled env archive.metadata.toothRepoPath = false)
    (h2 : runCommands env.cmdOk archive.metadata.commands.preInstall = (none, t1))
    (h3 : archive.metadata.assetURLStr = some u) :
    ((Install env archive p fs).result = some IErr.assetSpecMismatch ↔
      ((p.isEmpty = true ∧ u ≠ "") ∨ (p.isEmpty = false ∧ u = ""))) :=
  install_config_error_iff env archive p fs u t1 h1 h2 h3

/-- Witness for the amended C2 at a concrete mismatched input. -/
theorem C2_config_error_iff_exactly_one_empty_witness :
    ((Install envW archC3 [] fsM).result = some IErr.assetSpecMismatch ↔
      ((([] : Path).isEmpty = true ∧ ("https://x/a.zip" : String) ≠ "") ∨
        (([] : Path).isEmpty = false ∧ ("https://x/a.zip" : String) = ""))) :=
  C2_config_error_iff_exactly_one_empty envW archC3 [] fsM "https://x/a.zip" ["pre1"]
    (by decide) rfl rfl

/-- C3 counterexample: a call of `Install` that fails with the
asset-location configuration error after having already executed the
pre-install lifecycle command `pre1`, refuting the claim that no
lifecycle command runs before that failure. -/
theorem C3_preinstall_runs_before_config_check :
    (Install envW archC3 [] fsM).result = some IErr.assetSpecMismatch ∧
    (Install envW archC3 [] fsM).trace = ["pre1"] := by
  decide

/-- C3 (amended): every call of `Install` that fails with the
asset-location configuration error has written no file (the filesystem is
unchanged), but the pre-install commands have already been executed: the
check happens after step 2, not before every side effect. -/
theorem C3_config_error_no_file_written (env : Env) (archive : Archive) (p : Path) (fs : FS)
    (h : (Install env archive p fs).result = some IErr.assetSpecMismatch) :
    (Install env archive p fs).fs = fs ∧
    (Install env archive p fs).trace =
      (runCommands env.cmdOk archive.metadata.commands.preInstall).2 := by
  rw [install_mismatch_inv env archive p fs h]
  exact ⟨rfl, rfl⟩

/-- Witness for the amended C3. -/
theorem C3_config_error_no_file_written_witness :
    (Install envW archC3 [] fsM).fs = fsM ∧
    (Install envW archC3 [] fsM).trace =
      (runCommands envW.cmdOk archC3.metadata.commands.preInstall).2 :=
  C3_config_error_no_file_written envW archC3 [] fsM (by decide)

/-- C4: once the duplicate check, the pre-install commands and the
asset-URL retrieval succeed, a non-empty asset URL with an empty supplied
archive path fails with the configuration error, and an empty asset URL
with a non-empty supplied archive path fails with the configuration
error. -/
theorem C4_opposite_pairing_config_error (env : Env) (archive : Archive) (p : Path)
    (fs : FS) (u : String) (t1 : List String)
    (h1 : isInstalled env archive.metadata.toothRepoPath = false)
    (h2 : runCommands env.cmdOk archive.metadata.commands.preInstall = (none, t1))
    (h3 : archive.metadata.assetURLStr = some u)
    (h4 : (p.isEmpty = true ∧ u ≠ "") ∨ (p.isEmpty = false ∧ u = "")) :
    (Install env archive p fs).result = some IErr.assetSpecMismatch :=
  (install_config_error_iff env archive p fs u t1 h1 h2 h3).mpr h4

/-- Witness for C4: empty supplied path with non-empty asset URL. -/
theorem C4_opposite_pairing_config_error_witness :
    (Install envW archC3 [] fsM).result = some IErr.assetSpecMismatch :=
  C4_opposite_pairing_config_error envW archC3 [] fsM "https://x/a.zip" ["pre1"]
    (by decide) rfl rfl (Or.inl ⟨rfl, by decide⟩)

/-- C5 (code divergence evidence): the first rule's occupied destination
makes `placeFiles` fail with the conflict error before creating any
directory (the filesystem it returns is exactly the initial one) and the
second rule's file is never placed; but `Install` itself succeeds, because
install.go discards the error `placeFiles` returns. -/
theorem C5_dest_exists_aborts_placement_but_not_install :
    placeFiles envC5 mC5 archC5.filePath archC5.contentRoot fsC5 =
      (some (IErr.destExists ["occupied"]), fsC5) ∧
    (Install envC5 archC5 [] fsC5).fs.isFile ["ws", "other"] = false ∧
    (Install envC5 archC5 [] fsC5).result = none := by
  decide

/-- C6: installing an identity that the registry already records as
installed fails with the already-installed error, executes no lifecycle
command and leaves the filesystem untouched. -/
theorem C6_already_installed_rejected_without_side_effects (env : Env) (archive : Archive)
    (p : Path) (fs : FS)
    (h : isInstalled env archive.metadata.toothRepoPath = true) :
    Install env archive p fs =
      ⟨some (IErr.alreadyInstalled archive.metadata.toothRepoPath), fs, []⟩ := by
  unfold Install
  simp [h]

/-- Witness for C6. -/
theorem C6_already_installed_rejected_without_side_effects_witness :
    Install envC6 archC6 [] fsM =
      ⟨some (IErr.alreadyInstalled "a.b/c"), fsM, []⟩ :=
  C6_already_installed_rejected_without_side_effects envC6 archC6 [] fsM (by decide)

/-- C7: a rule that goes through without error copies exactly the
non-directory entries whose normalized path equals the content root
joined with the rule's source — the final filesystem is the fold of
create-file over those matches in archive enumeration order — and when the
match list ends in an entry, that last match's bytes are the destination's
final content. -/
theorem C7_exact_match_last_write_wins (wd cr : Path) (rule : PlaceRule) (zip : Zip)
    (fs fs1 : FS) (relDest relSrc : Path)
    (hd : parsePath rule.dest = some relDest)
    (hex : fs.existsAt (wd ++ relDest) = false)
    (hmk : fs.mkdirAll (wd ++ relDest).dropLast = some fs1)
    (hs : parsePath rule.src = some relSrc)
    (hdir : fs1.isDir (wd ++ relDest) = false)
    (hp : ∀ e ∈ zip, e.isDirEntry = false → (parsePath e.name).isSome) :
    placeRuleStep wd cr zip rule fs =
      (none, (matchingEntries (cr ++ relSrc) zip).foldl
        (fun f e => f.setFile (wd ++ relDest) e.content) fs1) ∧
    (∀ l e₀, matchingEntries (cr ++ relSrc) zip = l ++ [e₀] →
      ((placeRuleStep wd cr zip rule fs).2).getFile (wd ++ relDest) = some e₀.content) := by
  have hstep : placeRuleStep wd cr zip rule fs =
      copyMatches (cr ++ relSrc) (wd ++ relDest) zip fs1 := by
    simp only [placeRuleStep, hd, hex, Bool.false_eq_true, if_false, hmk, hs]
  have hmain : placeRuleStep wd cr zip rule fs =
      (none, (matchingEntries (cr ++ relSrc) zip).foldl
        (fun f e => f.setFile (wd ++ relDest) e.content) fs1) := by
    rw [hstep]
    exact copyMatches_eq_foldl _ _ _ _ hdir hp
  refine ⟨hmain, ?_⟩
  intro l e₀ hlast
  rw [hmain, hlast]
  show ((l ++ [e₀]).foldl
    (fun f e => f.setFile (wd ++ relDest) e.content) fs1).getFile (wd ++ relDest) =
      some e₀.content
  rw [List.foldl_append]
  exact FS.getFile_setFile_same _ _ _

/-- Witness for C7 at the spec's own scenario: entries `a/b.txt` and
`a/bb.txt`, rule source `b.txt` under content root `a`: only `a/b.txt` is
selected and its bytes end up at the destination. -/
theorem C7_exact_match_last_write_wins_witness :
    placeRuleStep ["ws"] ["a"] zipC7 ruleC7 fsEmpty =
      (none, (matchingEntries (["a"] ++ ["b.txt"]) zipC7).foldl
        (fun f e => f.setFile (["ws"] ++ ["out.txt"]) e.content) fs1C7) ∧
    (placeRuleStep ["ws"] ["a"] zipC7 ruleC7 fsEmpty).2.getFile (["ws"] ++ ["out.txt"]) =
      some "GOOD" := by
  have h := C7_exact_match_last_write_wins ["ws"] ["a"] ruleC7 zipC7 fsEmpty fs1C7
    ["out.txt"] ["b.txt"] (by decide) (by decide) (by decide) (by decide) (by decide)
    (by decide)
  exact ⟨h.1, h.2 [] ⟨"a/b.txt", "GOOD"⟩ (by decide)⟩

/-- C8 (code divergence evidence): in this concrete run the placement
step fails, yet after the post-install command the metadata record is
still created with the serialized descriptor as content, because
install.go discards the error `placeFiles` returns: an earlier step's
failure does not prevent the record. -/
theorem C8_metadata_written_despite_placement_failure :
    (placeFiles envW mC8 archC8.filePath archC8.contentRoot fsC8).1 =
      some (IErr.destExists ["tool"]) ∧
    (Install envW archC8 [] fsC8).result = none ∧
    (Install envW archC8 [] fsC8).trace = ["post8"] ∧
    (Install envW archC8 [] fsC8).fs.getFile ["meta", "x.y%2Fz.json"] =
      some (marshalMetadata mC8) := by
  decide

/-- C9: a rule processed without error whose source matches no archive
entry leaves no file at the destination but still creates the
destination's missing parent directories. -/
theorem C9_no_match_rule_still_creates_directories (wd cr : Path) (rule : PlaceRule)
    (zip : Zip) (fs fs1 : FS) (relDest relSrc : Path)
    (hd : parsePath rule.dest = some relDest)
    (hex : fs.existsAt (wd ++ relDest) = false)
    (hmk : fs.mkdirAll (wd ++ relDest).dropLast = some fs1)
    (hs : parsePath rule.src = some relSrc)
    (hp : ∀ e ∈ zip, e.isDirEntry = false → (parsePath e.name).isSome)
    (hnone : matchingEntries (cr ++ relSrc) zip = []) :
    placeRuleStep wd cr zip rule fs = (none, fs1) ∧
    (∀ q ∈ prefixesOf (wd ++ relDest).dropLast, fs1.isDir q = true) ∧
    fs1.isFile (wd ++ relDest) = false := by
  refine ⟨?_, ?_, ?_⟩
  · have hstep : placeRuleStep wd cr zip rule fs =
        copyMatches (cr ++ relSrc) (wd ++ relDest) zip fs1 := by
      simp only [placeRuleStep, hd, hex, Bool.false_eq_true, if_false, hmk, hs]
    rw [hstep]
    exact copyMatches_no_match _ _ _ _ hp hnone
  · intro q hq
    have hdirs := FS.mkdirAll_dirs fs _ fs1 hmk
    simp only [FS.isDir, hdirs, decide_eq_true_eq, List.mem_append]
    exact Or.inl hq
  · have hfiles := FS.mkdirAll_files fs _ fs1 hmk
    rw [FS.isFile_of_files_eq fs fs1 hfiles]
    exact FS.isFile_false_of_existsAt_false fs _ hex

/-- Witness for C9: the no-match rule creates `ws/sub` and places no
file. -/
theorem C9_no_match_rule_still_creates_directories_witness :
    placeRuleStep ["ws"] [] zipC9 ruleC9 fsEmpty = (none, fs1C9) ∧
    fs1C9.isDir ["ws", "sub"] = true ∧
    fs1C9.isFile (["ws"] ++ ["sub", "out.txt"]) = false := by
  have h := C9_no_match_rule_still_creates_directories ["ws"] [] ruleC9 zipC9 fsEmpty
    fs1C9 ["sub", "out.txt"] ["missing.txt"] (by decide) (by decide) (by decide)
    (by decide) (by decide) (by decide)
  exact ⟨h.1, h.2.1 ["ws", "sub"] (by decide), h.2.2⟩

/-- C10: when an earlier rule has placed a file at a destination, the next
rule targeting the same destination fails with the
destination-already-exists error - the check is evaluated per rule against
the filesystem state at that moment, so an install conflicts with files it
placed itself, and the partial state is kept. -/
theorem C10_later_rule_conflicts_with_earlier_placement (wd cr : Path)
    (r₁ r₂ : PlaceRule) (rs : List PlaceRule) (zip : Zip) (fs fs1 : FS) (relDest : Path)
    (h1 : placeRuleStep wd cr zip r₁ fs = (none, fs1))
    (hd2 : parsePath r₂.dest = some relDest)
    (hplaced : fs1.isFile (wd ++ relDest) = true) :
    placeRules wd cr zip (r₁ :: r₂ :: rs) fs = (some (IErr.destExists relDest), fs1) := by
  have hex : fs1.existsAt (wd ++ relDest) = true := by
    unfold FS.existsAt
    rw [hplaced]
    rfl
  have h2 : placeRuleStep wd cr zip r₂ fs1 = (some (IErr.destExists relDest), fs1) := by
    simp only [placeRuleStep, hd2, hex, if_true]
  simp only [placeRules, h1, h2]

/-- Witness for C10: the same rule twice in a row - the second processing
finds the file the first one placed and fails. -/
theorem C10_later_rule_conflicts_with_earlier_placement_witness :
    placeRules ["ws"] [] zipTool [ruleC10, ruleC10] fsEmpty =
      (some (IErr.destExists ["tool"]), fs1C10) :=
  C10_later_rule_conflicts_with_earlier_placement ["ws"] [] ruleC10 ruleC10 [] zipTool
    fsEmpty fs1C10 ["tool"] (by decide) (by decide) (by decide)

end LipInstall
